import Mathlib

/-!
Shallow embedding of the puzzle-grid state machine of
`src/GridManager.ts` (class `GridManager`) from the Astral Queens game.

Modelling conventions:
* `BABYLON` meshes, materials and particle effects are pure presentation
  and carry no puzzle state; they are dropped.  The `queens : Mesh[]`
  array is modelled as the list of `(row, col)` coordinates encoded in the
  mesh names `queen_<row>_<col>`, since those names are the only queue
  state the logic reads (`removeQueen` looks meshes up by that name and
  `isPuzzleSolved` reads `queens.length`).
* The asynchronous crown-model load inside `placeQueen` is modelled as
  completing synchronously (the spec's concurrency section declares the
  engine synchronous); both the success and the fallback path push the
  queen mesh and the pushed name is the same.
* A `GridCell` object of the source is identified by its coordinates;
  operations that receive a cell object receive `(row, col)` here and
  read the cell out of the grid, which is what every caller of the class
  does (`getCellAtPosition` returns `this.cells[row][col]`).
-/

namespace AstralQueens

structure GridCell where
  row : Nat
  col : Nat
  regionId : Nat
  hasQueen : Bool
  marked : Bool
  deriving Repr, DecidableEq

/-- `GridRegion` keeps only the logic-relevant fields of the source
structure (`id` and the member-cell list, the latter as coordinates);
the `color` field is presentation-only. -/
structure GridRegion where
  id : Nat
  cells : List (Nat × Nat)
  deriving Repr, DecidableEq

structure GridState where
  gridSize : Nat
  cells : List (List GridCell)
  regions : List GridRegion
  queens : List (Nat × Nat)
  deriving Repr, DecidableEq

/-- The eight default regions built by `initializeDefaultRegions`:
ids `0..7`, each with an empty `cells` list (the source never appends
to `region.cells` anywhere). -/
def initialRegions : List GridRegion :=
  (List.range 8).map fun i => { id := i, cells := [] }

/-- State of a freshly constructed `GridManager` (constructor calls
`initializeDefaultRegions`; no grid has been built yet). -/
def initialState : GridState :=
  { gridSize := 0, cells := [], regions := initialRegions, queens := [] }

/-- Replace one list entry in place, mirroring a mutation of the array
element `l[n]`. -/
def listModify {α : Type} (l : List α) (n : Nat) (f : α → α) : List α :=
  match l, n with
  | [], _ => []
  | a :: as, 0 => f a :: as
  | a :: as, n + 1 => a :: listModify as n f

/-- Read `this.cells[row][col]`; out-of-range reads never happen in the
source (cell objects come from the grid itself), the default is a dummy. -/
def cellAt (s : GridState) (row col : Nat) : GridCell :=
  (s.cells.getD row []).getD col
    { row := row, col := col, regionId := 0, hasQueen := false, marked := false }

/-- Mutate the cell object stored at `this.cells[row][col]`. -/
def updateCellAt (s : GridState) (row col : Nat) (f : GridCell → GridCell) : GridState :=
  { s with cells := listModify s.cells row fun rowCells => listModify rowCells col f }

/-- Member-cell list of `this.regions[regionId]`. -/
def regionCellsOf (s : GridState) (regionId : Nat) : List (Nat × Nat) :=
  (s.regions.getD regionId { id := regionId, cells := [] }).cells

/-- Cell construction in `createCell`: fresh cells start with
`hasQueen = false` and `marked = false`.  The source's material step
additionally dereferences `this.regions[regionId].color`, which
presumes `regionId` indexes an existing region; `createCellChecked`
models that dereference, and this total function is the cell it
produces when the dereference succeeds. -/
def createCell (row col regionId : Nat) : GridCell :=
  { row := row, col := col, regionId := regionId, hasQueen := false, marked := false }

/-- The `resetGrid` method: disposes all queens, marks and cells and
sets `gridSize = 0`; `this.regions` is untouched. -/
def resetGrid (s : GridState) : GridState :=
  { s with cells := [], queens := [], gridSize := 0 }

/-- The `createGrid` method: resets, then builds `gridSize × gridSize`
fresh cells whose `regionId` comes from `regionLayout[row][col]`. -/
def createGrid (s : GridState) (gridSize : Nat) (regionLayout : List (List Nat)) : GridState :=
  let s0 := resetGrid s
  { s0 with
    gridSize := gridSize
    cells := (List.range gridSize).map fun row =>
      (List.range gridSize).map fun col =>
        createCell row col ((regionLayout.getD row []).getD col 0) }

/-- The material step of `createCell` reads
`this.regions[regionId].color`; only the eight default regions are ever
constructed, so a `regionId` with no region entry makes the dereference
throw a `TypeError`.  `createCellChecked` returns `none` exactly when
the lookup fails, and the built cell otherwise. -/
def createCellChecked (s0 : GridState) (row col regionId : Nat) : Option GridCell :=
  match s0.regions[regionId]? with
  | none => none
  | some _ => some (createCell row col regionId)

/-- The `createGrid` method with the region dereference of `createCell`
modelled: the thrown `TypeError` propagates out of the cell loops, so
the build aborts (returns `none`) as soon as some layout entry indexes
no region, and otherwise produces exactly the grid of `createGrid`.
The dereference runs against the regions of the already-reset state, as
in the source, where `resetGrid` leaves `this.regions` untouched. -/
def createGridChecked (s : GridState) (gridSize : Nat)
    (regionLayout : List (List Nat)) : Option GridState :=
  match (List.range gridSize).mapM (fun row =>
      (List.range gridSize).mapM fun col =>
        createCellChecked (resetGrid s) row col ((regionLayout.getD row []).getD col 0)) with
  | none => none
  | some cells => some { resetGrid s with gridSize := gridSize, cells := cells }

/-- Rule 2 loop of `isPlacementValid`: some cell of the row has a queen. -/
def rowConflict (s : GridState) (row : Nat) : Bool :=
  (List.range s.gridSize).any fun col => (cellAt s row col).hasQueen

/-- Rule 3 loop of `isPlacementValid`: some cell of the column has a queen. -/
def colConflict (s : GridState) (col : Nat) : Bool :=
  (List.range s.gridSize).any fun row => (cellAt s row col).hasQueen

/-- Rule 4 loop of `isPlacementValid`: some member cell of
`this.regions[regionId].cells` has a queen. -/
def regionConflict (s : GridState) (regionId : Nat) : Bool :=
  (regionCellsOf s regionId).any fun rc => (cellAt s rc.1 rc.2).hasQueen

def diagonalOffsets : List (Int × Int) :=
  [(-1, -1), (-1, 1), (1, -1), (1, 1)]

/-- One iteration of the rule 5 loop. -/
def diagonalOffsetHit (s : GridState) (row col : Nat) (off : Int × Int) : Bool :=
  let newRow : Int := (row : Int) + off.1
  let newCol : Int := (col : Int) + off.2
  decide (0 ≤ newRow) && decide (newRow < (s.gridSize : Int)) &&
    decide (0 ≤ newCol) && decide (newCol < (s.gridSize : Int)) &&
    (cellAt s newRow.toNat newCol.toNat).hasQueen

/-- Rule 5 of `isPlacementValid`: a queen on an immediate diagonal
neighbour. -/
def hasDiagonalConflict (s : GridState) (row col : Nat) : Bool :=
  diagonalOffsets.any (diagonalOffsetHit s row col)

/-- The private `isPlacementValid(cell)` method, rules 1–5 in order. -/
def isPlacementValid (s : GridState) (row col : Nat) : Bool :=
  let cell := cellAt s row col
  if cell.hasQueen then false
  else if rowConflict s cell.row then false
  else if colConflict s cell.col then false
  else if regionConflict s cell.regionId then false
  else if hasDiagonalConflict s cell.row cell.col then false
  else true

/-- The private `placeQueen(cell)` method: pushes the queen mesh
`queen_<row>_<col>` and sets `cell.hasQueen = true`. -/
def placeQueen (s : GridState) (row col : Nat) : GridState :=
  let s1 := { s with queens := s.queens ++ [(row, col)] }
  updateCellAt s1 row col fun c => { c with hasQueen := true }

/-- The public `attemptPlaceQueen(cell)` method; the pair is the state
after the call together with the returned boolean. -/
def attemptPlaceQueen (s : GridState) (row col : Nat) : GridState × Bool :=
  if isPlacementValid s row col then (placeQueen s row col, true)
  else (s, false)

/-- The public `removeQueen(cell)` method.  The mesh lookup
`getMeshByName("queen_<row>_<col>")` succeeds exactly when that queen
is still tracked, i.e. when `(row, col)` is in the queens list. -/
def removeQueen (s : GridState) (row col : Nat) : GridState × Bool :=
  if !(cellAt s row col).hasQueen then (s, false)
  else if (row, col) ∈ s.queens then
    ({ updateCellAt s row col (fun c => { c with hasQueen := false }) with
        queens := s.queens.erase (row, col) }, true)
  else (s, false)

/-- Row count of `isValidQueenPlacement`: queens in the row excluding
the target column. -/
def rowQueensExcl (s : GridState) (row col : Nat) : Nat :=
  ((List.range s.gridSize).filter fun c => c != col && (cellAt s row c).hasQueen).length

/-- Column count of `isValidQueenPlacement`. -/
def colQueensExcl (s : GridState) (row col : Nat) : Nat :=
  ((List.range s.gridSize).filter fun r => r != row && (cellAt s r col).hasQueen).length

/-- Region count of `isValidQueenPlacement` (`regionCell !== cell`
becomes coordinate inequality). -/
def regionQueensExcl (s : GridState) (regionId row col : Nat) : Nat :=
  ((regionCellsOf s regionId).filter fun rc =>
    rc != (row, col) && (cellAt s rc.1 rc.2).hasQueen).length

/-- The private `isValidQueenPlacement(cell)` helper used by the win
check and by `tryPlaceQueen`: counts other queens in the row, column and
region, rejects on an immediate diagonal neighbour, then requires all
three counts to be zero. -/
def isValidQueenPlacement (s : GridState) (row col : Nat) : Bool :=
  let cell := cellAt s row col
  if hasDiagonalConflict s cell.row cell.col then false
  else rowQueensExcl s cell.row cell.col == 0 &&
    colQueensExcl s cell.row cell.col == 0 &&
    regionQueensExcl s cell.regionId cell.row cell.col == 0

/-- The public `tryPlaceQueen(cell)` method. -/
def tryPlaceQueen (s : GridState) (row col : Nat) : GridState × Bool :=
  if (cellAt s row col).hasQueen then (s, false)
  else if !isValidQueenPlacement s row col then (s, false)
  else (placeQueen s row col, true)

/-- The public `toggleMark(cell)` method (the X-mark meshes are
presentation only). -/
def toggleMark (s : GridState) (row col : Nat) : GridState :=
  updateCellAt s row col fun c => { c with marked := !c.marked }

/-- Row-major enumeration of the grid coordinates, as the nested
`for` loops of the source walk them. -/
def allCoords (s : GridState) : List (Nat × Nat) :=
  (List.range s.gridSize).flatMap fun row =>
    (List.range s.gridSize).map fun col => (row, col)

/-- The public `getGridState` method: positions of all queen-holding
cells in row-major order. -/
def getGridState (s : GridState) : List (Nat × Nat) :=
  (allCoords s).filter fun rc => (cellAt s rc.1 rc.2).hasQueen

/-- Duplicate detection of the `regionsWithQueens` set loop: the loop
returns `false` as soon as a region id repeats. -/
def hasDupNat : List Nat → Bool
  | [] => false
  | a :: as => as.contains a || hasDupNat as

/-- The public `isPuzzleSolved` method: exactly `gridSize` tracked
queens, every queen-holding cell passes `isValidQueenPlacement`, no
region id occurs twice among queen cells, and every region of
`this.regions` owns a queen. -/
def isPuzzleSolved (s : GridState) : Bool :=
  if s.queens.length ≠ s.gridSize then false
  else if (allCoords s).any (fun rc =>
      (cellAt s rc.1 rc.2).hasQueen && !isValidQueenPlacement s rc.1 rc.2) then false
  else if hasDupNat ((getGridState s).map fun rc => (cellAt s rc.1 rc.2).regionId) then
    false
  else if !(s.regions.all fun reg =>
      (getGridState s).any fun rc => (cellAt s rc.1 rc.2).regionId == reg.id) then false
  else true

/-- Diagonal adjacency as the spec states it: row and column distances
both exactly one. -/
def diagAdjacent (r c r' c' : Nat) : Prop :=
  ((r : Int) - (r' : Int)).natAbs = 1 ∧ ((c : Int) - (c' : Int)).natAbs = 1

instance (r c r' c' : Nat) : Decidable (diagAdjacent r c r' c') := by
  unfold diagAdjacent
  infer_instance

/-- Structural and behavioural invariant of every state the
`GridManager` can actually be in: the cell matrix is square of side
`gridSize` and each cell records its own coordinates; the regions are
the untouched default eight; the queens list tracks exactly the
queen-holding cells without duplicates; and no two queens share a row,
share a column, or touch diagonally. -/
structure Inv (s : GridState) : Prop where
  cellsLen : s.cells.length = s.gridSize
  rowLen : ∀ r, r < s.gridSize → (s.cells.getD r []).length = s.gridSize
  coords : ∀ r c, r < s.gridSize → c < s.gridSize →
    (cellAt s r c).row = r ∧ (cellAt s r c).col = c
  regionsEq : s.regions = initialRegions
  queensNodup : s.queens.Nodup
  queensMem : ∀ rc : Nat × Nat, rc ∈ s.queens ↔
    rc.1 < s.gridSize ∧ rc.2 < s.gridSize ∧ (cellAt s rc.1 rc.2).hasQueen = true
  rowUnique : ∀ r c₁ c₂, r < s.gridSize → c₁ < s.gridSize → c₂ < s.gridSize →
    (cellAt s r c₁).hasQueen = true → (cellAt s r c₂).hasQueen = true → c₁ = c₂
  colUnique : ∀ r₁ r₂ c, r₁ < s.gridSize → r₂ < s.gridSize → c < s.gridSize →
    (cellAt s r₁ c).hasQueen = true → (cellAt s r₂ c).hasQueen = true → r₁ = r₂
  noDiag : ∀ r c r' c', r < s.gridSize → c < s.gridSize → r' < s.gridSize →
    c' < s.gridSize → (cellAt s r c).hasQueen = true → (cellAt s r' c').hasQueen = true →
    ¬diagAdjacent r c r' c'

/-- One call to a public mutating method of the manager.  Placement,
removal and mark operations receive a cell of the current grid (the
only way callers obtain a `GridCell` is `getCellAtPosition`, which
returns an entry of `this.cells`), hence the bounds hypotheses. -/
inductive Step : GridState → GridState → Prop
  | attemptPlace (s : GridState) (row col : Nat) (hr : row < s.gridSize)
      (hc : col < s.gridSize) : Step s (attemptPlaceQueen s row col).1
  | tryPlace (s : GridState) (row col : Nat) (hr : row < s.gridSize)
      (hc : col < s.gridSize) : Step s (tryPlaceQueen s row col).1
  | removeStep (s : GridState) (row col : Nat) (hr : row < s.gridSize)
      (hc : col < s.gridSize) : Step s (removeQueen s row col).1
  | toggleStep (s : GridState) (row col : Nat) (hr : row < s.gridSize)
      (hc : col < s.gridSize) : Step s (toggleMark s row col)
  | buildStep (s : GridState) (n : Nat) (layout : List (List Nat)) :
      Step s (createGrid s n layout)

/-- States the `GridManager` can reach from construction via its public
methods. -/
inductive Reachable : GridState → Prop
  | start : Reachable initialState
  | step {s s' : GridState} : Reachable s → Step s s' → Reachable s'

/-- Forget the `marked` flag of one cell. -/
def stripCell (c : GridCell) : GridCell := { c with marked := false }

/-- Forget every `marked` flag; two states agree on everything except
marks exactly when their `stripMarks` images are equal. -/
def stripMarks (s : GridState) : GridState :=
  { s with cells := s.cells.map fun rowCells => rowCells.map stripCell }

/-- Region layout of the bundled puzzle `altar_2` (also used by the
spec's concrete 5×5 scenario). -/
def altar2Regions : List (List Nat) :=
  [[0, 0, 2, 2, 2],
   [0, 0, 2, 2, 2],
   [3, 1, 1, 6, 6],
   [3, 1, 1, 6, 6],
   [3, 3, 1, 1, 6]]

/-- The freshly built altar_2 grid. -/
def demoGrid : GridState := createGrid initialState 5 altar2Regions

/-- Successive states of a full legal solution of altar_2: queens at
(0,1), (1,3), (2,0), (3,2), (4,4), one per row, column and used region,
none diagonally adjacent. -/
def solState1 : GridState := (tryPlaceQueen demoGrid 0 1).1

def solState2 : GridState := (tryPlaceQueen solState1 1 3).1

def solState3 : GridState := (tryPlaceQueen solState2 2 0).1

def solState4 : GridState := (tryPlaceQueen solState3 3 2).1

def solState5 : GridState := (tryPlaceQueen solState4 4 4).1

/-- Altar_2 grid with one queen at (0,2), a cell of region 2. -/
def regionDemo1 : GridState := (tryPlaceQueen demoGrid 0 2).1

/-- Altar_2 grid with one queen at (2,2). -/
def diagDemo1 : GridState := (tryPlaceQueen demoGrid 2 2).1

/-! ### Basic lemmas about `listModify`, `cellAt` and `updateCellAt` -/

theorem length_listModify {α : Type} (l : List α) (n : Nat) (f : α → α) :
    (listModify l n f).length = l.length := by
  induction l generalizing n with
  | nil => rfl
  | cons a as ih =>
    cases n with
    | zero => rfl
    | succ m => simpa [listModify] using ih m

theorem getD_listModify {α : Type} (l : List α) (n m : Nat) (f : α → α) (d : α) :
    (listModify l n f).getD m d =
      if m = n ∧ n < l.length then f (l.getD m d) else l.getD m d := by
  induction l generalizing n m with
  | nil => simp [listModify]
  | cons a as ih =>
    cases n with
    | zero =>
      cases m with
      | zero => simp [listModify]
      | succ k => simp [listModify]
    | succ n' =>
      cases m with
      | zero => simp [listModify]
      | succ k =>
        simp only [listModify, List.getD_cons_succ, ih n' k]
        by_cases h : k = n' ∧ n' < as.length
        · simp [h.1, h.2, Nat.succ_lt_succ h.2]
        · have : ¬(k + 1 = n' + 1 ∧ n' + 1 < as.length + 1) := by
            intro hc
            exact h ⟨Nat.succ_injective hc.1, Nat.lt_of_succ_lt_succ hc.2⟩
          simp only [List.length_cons, this, if_false]
          by_cases h2 : k = n' ∧ n' < as.length
          · exact absurd h2 h
          · simp [h2]

theorem getD_oob {α : Type} (l : List α) (n : Nat) (d : α) (h : l.length ≤ n) :
    l.getD n d = d := by
  rw [List.getD_eq_getElem?_getD, List.getElem?_eq_none h]
  rfl

@[simp] theorem updateCellAt_gridSize (s : GridState) (r c : Nat) (f : GridCell → GridCell) :
    (updateCellAt s r c f).gridSize = s.gridSize := rfl

@[simp] theorem updateCellAt_regions (s : GridState) (r c : Nat) (f : GridCell → GridCell) :
    (updateCellAt s r c f).regions = s.regions := rfl

@[simp] theorem updateCellAt_queens (s : GridState) (r c : Nat) (f : GridCell → GridCell) :
    (updateCellAt s r c f).queens = s.queens := rfl

@[simp] theorem updateCellAt_cells_length (s : GridState) (r c : Nat) (f : GridCell → GridCell) :
    (updateCellAt s r c f).cells.length = s.cells.length := by
  simp [updateCellAt, length_listModify]

theorem cells_getD_updateCellAt (s : GridState) (r c r' : Nat) (f : GridCell → GridCell) :
    (updateCellAt s r c f).cells.getD r' [] =
      if r' = r ∧ r < s.cells.length then listModify (s.cells.getD r' []) c f
      else s.cells.getD r' [] :=
  getD_listModify s.cells r r' (fun rowCells => listModify rowCells c f) []

theorem cellAt_updateCellAt (s : GridState) (r c : Nat) (f : GridCell → GridCell)
    (r' c' : Nat) :
    cellAt (updateCellAt s r c f) r' c' =
      if r' = r ∧ r < s.cells.length ∧ c' = c ∧ c < (s.cells.getD r []).length then
        f (cellAt s r' c')
      else cellAt s r' c' := by
  unfold cellAt
  rw [cells_getD_updateCellAt]
  by_cases hr : r' = r ∧ r < s.cells.length
  · obtain ⟨hr1, hr2⟩ := hr
    rw [if_pos ⟨hr1, hr2⟩, getD_listModify]
    subst hr1
    have hr : r' = r' ∧ r' < s.cells.length := ⟨rfl, hr2⟩
    by_cases hc : c' = c ∧ c < (s.cells.getD r' []).length
    · simp [hr.2, hc.1, hc.2]
    · have : ¬(r' = r' ∧ r' < s.cells.length ∧ c' = c ∧ c < (s.cells.getD r' []).length) := by
        intro hcon
        exact hc ⟨hcon.2.2.1, hcon.2.2.2⟩
      rw [if_neg hc, if_neg this]
  · rw [if_neg hr]
    have : ¬(r' = r ∧ r < s.cells.length ∧ c' = c ∧ c < (s.cells.getD r []).length) := by
      intro hcon
      exact hr ⟨hcon.1, hcon.2.1⟩
    rw [if_neg this]

theorem updateCellAt_length_getD (s : GridState) (r c r' : Nat) (f : GridCell → GridCell) :
    ((updateCellAt s r c f).cells.getD r' []).length = (s.cells.getD r' []).length := by
  rw [cells_getD_updateCellAt]
  by_cases h : r' = r ∧ r < s.cells.length
  · simp [h, length_listModify]
  · simp [h]

/-! ### Lemmas about `createGrid` -/

@[simp] theorem createGrid_gridSize (s : GridState) (n : Nat) (layout : List (List Nat)) :
    (createGrid s n layout).gridSize = n := rfl

@[simp] theorem createGrid_queens (s : GridState) (n : Nat) (layout : List (List Nat)) :
    (createGrid s n layout).queens = [] := rfl

@[simp] theorem createGrid_regions (s : GridState) (n : Nat) (layout : List (List Nat)) :
    (createGrid s n layout).regions = s.regions := rfl

@[simp] theorem createGrid_cells_length (s : GridState) (n : Nat) (layout : List (List Nat)) :
    (createGrid s n layout).cells.length = n := by
  simp [createGrid]

theorem createGrid_cells_getD (s : GridState) (n : Nat) (layout : List (List Nat))
    (r : Nat) (hr : r < n) :
    (createGrid s n layout).cells.getD r [] =
      (List.range n).map fun col => createCell r col ((layout.getD r []).getD col 0) := by
  simp [createGrid, List.getD_eq_getElem?_getD, List.getElem?_map, List.getElem?_range hr]

theorem createGrid_row_length (s : GridState) (n : Nat) (layout : List (List Nat))
    (r : Nat) (hr : r < n) :
    ((createGrid s n layout).cells.getD r []).length = n := by
  rw [createGrid_cells_getD s n layout r hr]
  simp

theorem cellAt_createGrid (s : GridState) (n : Nat) (layout : List (List Nat))
    (r c : Nat) (hr : r < n) (hc : c < n) :
    cellAt (createGrid s n layout) r c = createCell r c ((layout.getD r []).getD c 0) := by
  unfold cellAt
  rw [createGrid_cells_getD s n layout r hr]
  simp [List.getD_eq_getElem?_getD, List.getElem?_map, List.getElem?_range hc]

/-! ### Characterizations of the conflict checks -/

theorem diagonalOffsetHit_eq_true (s : GridState) (row col : Nat) (off : Int × Int) :
    diagonalOffsetHit s row col off = true ↔
      ∃ r' c' : Nat, (r' : Int) = (row : Int) + off.1 ∧ (c' : Int) = (col : Int) + off.2 ∧
        r' < s.gridSize ∧ c' < s.gridSize ∧ (cellAt s r' c').hasQueen = true := by
  unfold diagonalOffsetHit
  simp only [Bool.and_eq_true, decide_eq_true_eq]
  constructor
  · rintro ⟨⟨⟨⟨h0r, hrN⟩, h0c⟩, hcN⟩, hq⟩
    refine ⟨((row : Int) + off.1).toNat, ((col : Int) + off.2).toNat, ?_, ?_, ?_, ?_, hq⟩ <;>
      omega
  · rintro ⟨r', c', hr, hc, hrN, hcN, hq⟩
    have hr' : ((row : Int) + off.1).toNat = r' := by omega
    have hc' : ((col : Int) + off.2).toNat = c' := by omega
    rw [hr', hc']
    refine ⟨⟨⟨⟨by omega, by omega⟩, by omega⟩, by omega⟩, hq⟩

theorem hasDiagonalConflict_eq_true (s : GridState) (row col : Nat) :
    hasDiagonalConflict s row col = true ↔
      ∃ r' c' : Nat, r' < s.gridSize ∧ c' < s.gridSize ∧
        diagAdjacent row col r' c' ∧ (cellAt s r' c').hasQueen = true := by
  unfold hasDiagonalConflict diagonalOffsets
  simp only [List.any_cons, List.any_nil, Bool.or_false, Bool.or_eq_true,
    diagonalOffsetHit_eq_true]
  constructor
  · rintro (h | h | h | h) <;> obtain ⟨r', c', h1, h2, h3, h4, h5⟩ := h <;>
      exact ⟨r', c', h3, h4, by unfold diagAdjacent; omega, h5⟩
  · rintro ⟨r', c', h1, h2, ⟨hra, hca⟩, hq⟩
    have hr' : (r' : Int) = (row : Int) + (-1) ∨ (r' : Int) = (row : Int) + 1 := by omega
    have hc' : (c' : Int) = (col : Int) + (-1) ∨ (c' : Int) = (col : Int) + 1 := by omega
    rcases hr' with h | h <;> rcases hc' with h' | h'
    · exact Or.inl ⟨r', c', h, h', h1, h2, hq⟩
    · exact Or.inr (Or.inl ⟨r', c', h, h', h1, h2, hq⟩)
    · exact Or.inr (Or.inr (Or.inl ⟨r', c', h, h', h1, h2, hq⟩))
    · exact Or.inr (Or.inr (Or.inr ⟨r', c', h, h', h1, h2, hq⟩))

theorem hasDiagonalConflict_eq_false (s : GridState) (row col : Nat) :
    hasDiagonalConflict s row col = false ↔
      ∀ r' c' : Nat, r' < s.gridSize → c' < s.gridSize →
        diagAdjacent row col r' c' → (cellAt s r' c').hasQueen = false := by
  rw [← Bool.not_eq_true, hasDiagonalConflict_eq_true]
  push_neg
  constructor
  · intro h r' c' h1 h2 h3
    simpa using h r' c' h1 h2 h3
  · intro h r' c' h1 h2 h3
    simpa using h r' c' h1 h2 h3

theorem rowConflict_eq_false (s : GridState) (row : Nat) :
    rowConflict s row = false ↔
      ∀ c, c < s.gridSize → (cellAt s row c).hasQueen = false := by
  rw [← Bool.not_eq_true]
  unfold rowConflict
  simp [List.any_eq_true, List.mem_range]

theorem colConflict_eq_false (s : GridState) (col : Nat) :
    colConflict s col = false ↔
      ∀ r, r < s.gridSize → (cellAt s r col).hasQueen = false := by
  rw [← Bool.not_eq_true]
  unfold colConflict
  simp [List.any_eq_true, List.mem_range]

theorem regionConflict_eq_false (s : GridState) (regionId : Nat) :
    regionConflict s regionId = false ↔
      ∀ rc ∈ regionCellsOf s regionId, (cellAt s rc.1 rc.2).hasQueen = false := by
  rw [← Bool.not_eq_true]
  unfold regionConflict
  simp [List.any_eq_true]

/-- In every state whose regions are the default eight, the member-cell
list of any region id is empty: the source never populates
`region.cells`. -/
theorem regionCellsOf_initial (s : GridState) (h : s.regions = initialRegions)
    (regionId : Nat) : regionCellsOf s regionId = [] := by
  unfold regionCellsOf
  rw [h]
  by_cases h8 : regionId < 8
  · simp [initialRegions, List.getD_eq_getElem?_getD, List.getElem?_map,
      List.getElem?_range h8]
  · rw [getD_oob]
    simp [initialRegions]
    omega

theorem rowQueensExcl_eq_zero (s : GridState) (row col : Nat) :
    rowQueensExcl s row col = 0 ↔
      ∀ c, c < s.gridSize → c ≠ col → (cellAt s row c).hasQueen = false := by
  unfold rowQueensExcl
  rw [List.length_eq_zero, List.filter_eq_nil_iff]
  constructor
  · intro h c hlt hne
    have := h c (List.mem_range.mpr hlt)
    simpa [bne_iff_ne, hne] using this
  · intro h c hc
    have hlt := List.mem_range.mp hc
    by_cases hne : c = col
    · simp [hne]
    · simp [bne_iff_ne, hne, h c hlt hne]

theorem colQueensExcl_eq_zero (s : GridState) (row col : Nat) :
    colQueensExcl s row col = 0 ↔
      ∀ r, r < s.gridSize → r ≠ row → (cellAt s r col).hasQueen = false := by
  unfold colQueensExcl
  rw [List.length_eq_zero, List.filter_eq_nil_iff]
  constructor
  · intro h r hlt hne
    have := h r (List.mem_range.mpr hlt)
    simpa [bne_iff_ne, hne] using this
  · intro h r hr
    have hlt := List.mem_range.mp hr
    by_cases hne : r = row
    · simp [hne]
    · simp [bne_iff_ne, hne, h r hlt hne]

theorem regionQueensExcl_eq_zero (s : GridState) (regionId row col : Nat) :
    regionQueensExcl s regionId row col = 0 ↔
      ∀ rc ∈ regionCellsOf s regionId, rc ≠ (row, col) →
        (cellAt s rc.1 rc.2).hasQueen = false := by
  unfold regionQueensExcl
  rw [List.length_eq_zero, List.filter_eq_nil_iff]
  constructor
  · intro h rc hm hne
    have := h rc hm
    simpa [bne_iff_ne, hne] using this
  · intro h rc hm
    by_cases hne : rc = (row, col)
    · simp [hne]
    · simp [bne_iff_ne, hne, h rc hm hne]

/-! ### Unfolding the two validators into their rule conjunctions -/

theorem isPlacementValid_eq_true (s : GridState) (row col : Nat) :
    isPlacementValid s row col = true ↔
      (cellAt s row col).hasQueen = false ∧
      rowConflict s (cellAt s row col).row = false ∧
      colConflict s (cellAt s row col).col = false ∧
      regionConflict s (cellAt s row col).regionId = false ∧
      hasDiagonalConflict s (cellAt s row col).row (cellAt s row col).col = false := by
  simp only [isPlacementValid]
  split_ifs with h1 h2 h3 h4 h5 <;> simp_all

theorem isValidQueenPlacement_eq_true (s : GridState) (row col : Nat) :
    isValidQueenPlacement s row col = true ↔
      hasDiagonalConflict s (cellAt s row col).row (cellAt s row col).col = false ∧
      rowQueensExcl s (cellAt s row col).row (cellAt s row col).col = 0 ∧
      colQueensExcl s (cellAt s row col).row (cellAt s row col).col = 0 ∧
      regionQueensExcl s (cellAt s row col).regionId (cellAt s row col).row
        (cellAt s row col).col = 0 := by
  simp only [isValidQueenPlacement]
  split_ifs with h1 <;> simp_all [Nat.beq_eq_true_eq, and_assoc]

/-! ### The two placement entry points agree -/

theorem bool_eq_of_true_iff {a b : Bool} (h : a = true ↔ b = true) : a = b := by
  cases a <;> cases b <;> simp_all

/-- On any state whose target cell records its own coordinates (true of
every cell the source ever constructs), `isPlacementValid` and the pair
occupancy-test + `isValidQueenPlacement` agree. -/
theorem isPlacementValid_eq_isValidQueenPlacement (s : GridState) (row col : Nat)
    (hrow : (cellAt s row col).row = row) (hcol : (cellAt s row col).col = col)
    (hq : (cellAt s row col).hasQueen = false) :
    isPlacementValid s row col = isValidQueenPlacement s row col := by
  apply bool_eq_of_true_iff
  rw [isPlacementValid_eq_true, isValidQueenPlacement_eq_true, hrow, hcol]
  rw [rowConflict_eq_false, colConflict_eq_false, regionConflict_eq_false,
    rowQueensExcl_eq_zero, colQueensExcl_eq_zero, regionQueensExcl_eq_zero]
  constructor
  · rintro ⟨-, hrc, hcc, hreg, hd⟩
    exact ⟨hd, fun c hc _ => hrc c hc, fun r hr _ => hcc r hr, fun rc hm _ => hreg rc hm⟩
  · rintro ⟨hd, hrc, hcc, hreg⟩
    refine ⟨hq, ?_, ?_, ?_, hd⟩
    · intro c hc
      by_cases hne : c = col
      · rw [hne]; exact hq
      · exact hrc c hc hne
    · intro r hr
      by_cases hne : r = row
      · rw [hne]; exact hq
      · exact hcc r hr hne
    · intro rc hm
      by_cases hne : rc = (row, col)
      · rw [hne]; exact hq
      · exact hreg rc hm hne

theorem attemptPlaceQueen_eq_tryPlaceQueen (s : GridState) (row col : Nat)
    (hrow : (cellAt s row col).row = row) (hcol : (cellAt s row col).col = col) :
    attemptPlaceQueen s row col = tryPlaceQueen s row col := by
  unfold attemptPlaceQueen tryPlaceQueen
  by_cases hq : (cellAt s row col).hasQueen
  · have hval : isPlacementValid s row col = false := by
      unfold isPlacementValid
      simp [hq]
    simp [hval, hq]
  · have hq' : (cellAt s row col).hasQueen = false := by simpa using hq
    rw [isPlacementValid_eq_isValidQueenPlacement s row col hrow hcol hq']
    simp only [hq', if_false, Bool.false_eq_true]
    cases h : isValidQueenPlacement s row col <;> simp

/-! ### The reachable-state invariant -/

theorem diagAdjacent_symm (r c r' c' : Nat) :
    diagAdjacent r c r' c' ↔ diagAdjacent r' c' r c := by
  unfold diagAdjacent
  omega

theorem diagAdjacent_ne_row (r c r' c' : Nat) (h : diagAdjacent r c r' c') : r ≠ r' := by
  unfold diagAdjacent at h
  omega

theorem cellAt_oob_hasQueen (s : GridState) (h1 : s.cells.length = s.gridSize)
    (h2 : ∀ r, r < s.gridSize → (s.cells.getD r []).length = s.gridSize) (r c : Nat)
    (h : ¬(r < s.gridSize ∧ c < s.gridSize)) : (cellAt s r c).hasQueen = false := by
  unfold cellAt
  by_cases hr : r < s.gridSize
  · have hc : ¬c < s.gridSize := fun hc => h ⟨hr, hc⟩
    rw [getD_oob _ c _ (by rw [h2 r hr]; omega)]
  · rw [getD_oob s.cells r [] (by omega), List.getD_nil]

theorem inv_initial : Inv initialState := by
  constructor <;> simp [initialState, cellAt]

theorem inv_createGrid (s : GridState) (n : Nat) (layout : List (List Nat))
    (h : s.regions = initialRegions) : Inv (createGrid s n layout) := by
  have hq : ∀ r c, r < n → c < n →
      (cellAt (createGrid s n layout) r c).hasQueen = false := by
    intro r c hr hc
    rw [cellAt_createGrid s n layout r c hr hc]
    rfl
  constructor
  · simp
  · intro r hr
    exact createGrid_row_length s n layout r (by simpa using hr)
  · intro r c hr hc
    rw [cellAt_createGrid s n layout r c (by simpa using hr) (by simpa using hc)]
    exact ⟨rfl, rfl⟩
  · simpa using h
  · simp
  · intro rc
    simp only [createGrid_queens, List.not_mem_nil, false_iff, createGrid_gridSize]
    rintro ⟨h1, h2, h3⟩
    rw [hq rc.1 rc.2 h1 h2] at h3
    exact Bool.false_ne_true h3
  · intro r c₁ c₂ hr hc₁ hc₂ hq1 hq2
    rw [hq r c₁ (by simpa using hr) (by simpa using hc₁)] at hq1
    exact absurd hq1 Bool.false_ne_true
  · intro r₁ r₂ c hr₁ hr₂ hc hq1 hq2
    rw [hq r₁ c (by simpa using hr₁) (by simpa using hc)] at hq1
    exact absurd hq1 Bool.false_ne_true
  · intro r c r' c' hr hc hr' hc' hq1 hq2
    rw [hq r c (by simpa using hr) (by simpa using hc)] at hq1
    exact absurd hq1 Bool.false_ne_true

theorem inv_toggleMark (s : GridState) (r c : Nat) (h : Inv s) : Inv (toggleMark s r c) := by
  have hcell : ∀ r' c',
      (cellAt (toggleMark s r c) r' c').row = (cellAt s r' c').row ∧
      (cellAt (toggleMark s r c) r' c').col = (cellAt s r' c').col ∧
      (cellAt (toggleMark s r c) r' c').hasQueen = (cellAt s r' c').hasQueen := by
    intro r' c'
    unfold toggleMark
    rw [cellAt_updateCellAt]
    split_ifs <;> exact ⟨rfl, rfl, rfl⟩
  constructor
  · simpa [toggleMark] using h.cellsLen
  · intro r' hr'
    unfold toggleMark
    rw [updateCellAt_length_getD]
    exact h.rowLen r' (by simpa using hr')
  · intro r' c' hr' hc'
    rw [(hcell r' c').1, (hcell r' c').2.1]
    exact h.coords r' c' (by simpa using hr') (by simpa using hc')
  · simpa [toggleMark] using h.regionsEq
  · simpa [toggleMark] using h.queensNodup
  · intro rc
    rw [(hcell rc.1 rc.2).2.2]
    exact h.queensMem rc
  · intro r' c₁ c₂ hr' hc₁ hc₂ hq1 hq2
    rw [(hcell r' c₁).2.2] at hq1
    rw [(hcell r' c₂).2.2] at hq2
    exact h.rowUnique r' c₁ c₂ (by simpa using hr') (by simpa using hc₁)
      (by simpa using hc₂) hq1 hq2
  · intro r₁ r₂ c' hr₁ hr₂ hc' hq1 hq2
    rw [(hcell r₁ c').2.2] at hq1
    rw [(hcell r₂ c').2.2] at hq2
    exact h.colUnique r₁ r₂ c' (by simpa using hr₁) (by simpa using hr₂)
      (by simpa using hc') hq1 hq2
  · intro r₁ c₁ r₂ c₂ hr₁ hc₁ hr₂ hc₂ hq1 hq2
    rw [(hcell r₁ c₁).2.2] at hq1
    rw [(hcell r₂ c₂).2.2] at hq2
    exact h.noDiag r₁ c₁ r₂ c₂ (by simpa using hr₁) (by simpa using hc₁)
      (by simpa using hr₂) (by simpa using hc₂) hq1 hq2

@[simp] theorem placeQueen_gridSize (s : GridState) (r c : Nat) :
    (placeQueen s r c).gridSize = s.gridSize := rfl

@[simp] theorem placeQueen_regions (s : GridState) (r c : Nat) :
    (placeQueen s r c).regions = s.regions := rfl

@[simp] theorem placeQueen_queens (s : GridState) (r c : Nat) :
    (placeQueen s r c).queens = s.queens ++ [(r, c)] := rfl

theorem placeQueen_cells_length (s : GridState) (r c : Nat) :
    (placeQueen s r c).cells.length = s.cells.length := by
  unfold placeQueen
  exact updateCellAt_cells_length _ _ _ _

theorem placeQueen_row_length (s : GridState) (r c r'' : Nat) :
    ((placeQueen s r c).cells.getD r'' []).length = (s.cells.getD r'' []).length := by
  unfold placeQueen
  exact updateCellAt_length_getD _ _ _ _ _

theorem cellAt_placeQueen (s : GridState) (r c r' c' : Nat) :
    cellAt (placeQueen s r c) r' c' =
      if r' = r ∧ r < s.cells.length ∧ c' = c ∧ c < (s.cells.getD r []).length then
        { cellAt s r' c' with hasQueen := true }
      else cellAt s r' c' := by
  unfold placeQueen
  rw [cellAt_updateCellAt]
  rfl

theorem inv_attemptPlaceQueen (s : GridState) (r c : Nat) (h : Inv s)
    (hr : r < s.gridSize) (hc : c < s.gridSize) : Inv (attemptPlaceQueen s r c).1 := by
  unfold attemptPlaceQueen
  by_cases hv : isPlacementValid s r c = true
  case neg =>
    simp only [hv, if_false, Bool.false_eq_true]
    exact h
  case pos =>
    simp only [hv, if_true]
    have hrowc := (h.coords r c hr hc).1
    have hcolc := (h.coords r c hr hc).2
    rw [isPlacementValid_eq_true, hrowc, hcolc] at hv
    obtain ⟨hq, hrowC, hcolC, hregC, hdiagC⟩ := hv
    have hrowClear := (rowConflict_eq_false s r).mp hrowC
    have hcolClear := (colConflict_eq_false s c).mp hcolC
    have hdiagClear := (hasDiagonalConflict_eq_false s r c).mp hdiagC
    have hrlen : r < s.cells.length := by rw [h.cellsLen]; exact hr
    have hclen : c < (s.cells.getD r []).length := by rw [h.rowLen r hr]; exact hc
    have hcell : ∀ r' c', cellAt (placeQueen s r c) r' c' =
        if r' = r ∧ c' = c then { cellAt s r' c' with hasQueen := true }
        else cellAt s r' c' := by
      intro r' c'
      rw [cellAt_placeQueen]
      by_cases hx : r' = r ∧ c' = c
      · rw [if_pos ⟨hx.1, hrlen, hx.2, hclen⟩, if_pos hx]
      · have hneg : ¬(r' = r ∧ r < s.cells.length ∧ c' = c ∧
            c < (s.cells.getD r []).length) := by tauto
        rw [if_neg hneg, if_neg hx]
    have hQ : ∀ r' c', (cellAt (placeQueen s r c) r' c').hasQueen = true ↔
        ((r' = r ∧ c' = c) ∨ (cellAt s r' c').hasQueen = true) := by
      intro r' c'
      rw [hcell r' c']
      by_cases hx : r' = r ∧ c' = c
      · simp [hx]
      · simp [hx]
    have hnotmem : (r, c) ∉ s.queens := by
      intro hmem
      have := ((h.queensMem (r, c)).mp hmem).2.2
      rw [hq] at this
      exact Bool.false_ne_true this
    constructor
    · rw [placeQueen_cells_length, placeQueen_gridSize]
      exact h.cellsLen
    · intro r'' hr''
      rw [placeQueen_row_length, placeQueen_gridSize] at *
      exact h.rowLen r'' hr''
    · intro r' c' hr' hc'
      rw [hcell r' c']
      by_cases hx : r' = r ∧ c' = c
      · rw [if_pos hx]
        exact h.coords r' c' (by simpa using hr') (by simpa using hc')
      · rw [if_neg hx]
        exact h.coords r' c' (by simpa using hr') (by simpa using hc')
    · rw [placeQueen_regions]
      exact h.regionsEq
    · rw [placeQueen_queens, List.nodup_append]
      refine ⟨h.queensNodup, by simp, ?_⟩
      intro a ha hb
      rw [List.mem_singleton] at hb
      rw [hb] at ha
      exact hnotmem ha
    · intro rc
      rw [placeQueen_queens, List.mem_append, List.mem_singleton, placeQueen_gridSize,
        hQ rc.1 rc.2]
      constructor
      · rintro (hmem | heq)
        · obtain ⟨h1, h2, h3⟩ := (h.queensMem rc).mp hmem
          exact ⟨h1, h2, Or.inr h3⟩
        · rw [heq]
          exact ⟨hr, hc, Or.inl ⟨rfl, rfl⟩⟩
      · rintro ⟨h1, h2, hnew | hold⟩
        · right
          obtain ⟨e1, e2⟩ := hnew
          exact Prod.ext e1 e2
        · left
          exact (h.queensMem rc).mpr ⟨h1, h2, hold⟩
    · intro r'' c₁ c₂ hr'' hc₁ hc₂ hq1 hq2
      rw [placeQueen_gridSize] at hr'' hc₁ hc₂
      rw [hQ r'' c₁] at hq1
      rw [hQ r'' c₂] at hq2
      rcases hq1 with ⟨e1, e2⟩ | hq1 <;> rcases hq2 with ⟨e3, e4⟩ | hq2
      · rw [e2, e4]
      · exfalso
        rw [e1] at hq2
        exact Bool.false_ne_true ((hrowClear c₂ hc₂).symm.trans hq2)
      · exfalso
        rw [e3] at hq1
        exact Bool.false_ne_true ((hrowClear c₁ hc₁).symm.trans hq1)
      · exact h.rowUnique r'' c₁ c₂ hr'' hc₁ hc₂ hq1 hq2
    · intro r₁ r₂ c'' hr₁ hr₂ hc'' hq1 hq2
      rw [placeQueen_gridSize] at hr₁ hr₂ hc''
      rw [hQ r₁ c''] at hq1
      rw [hQ r₂ c''] at hq2
      rcases hq1 with ⟨e1, e2⟩ | hq1 <;> rcases hq2 with ⟨e3, e4⟩ | hq2
      · rw [e1, e3]
      · exfalso
        rw [e2] at hq2
        exact Bool.false_ne_true ((hcolClear r₂ hr₂).symm.trans hq2)
      · exfalso
        rw [e4] at hq1
        exact Bool.false_ne_true ((hcolClear r₁ hr₁).symm.trans hq1)
      · exact h.colUnique r₁ r₂ c'' hr₁ hr₂ hc'' hq1 hq2
    · intro r₁ c₁ r₂ c₂ hr₁ hc₁ hr₂ hc₂ hq1 hq2 hadj
      rw [placeQueen_gridSize] at hr₁ hc₁ hr₂ hc₂
      rw [hQ r₁ c₁] at hq1
      rw [hQ r₂ c₂] at hq2
      rcases hq1 with ⟨e1, e2⟩ | hq1 <;> rcases hq2 with ⟨e3, e4⟩ | hq2
      · rw [e1, e3] at hadj
        exact (diagAdjacent_ne_row r c r c (by rw [e2, e4] at hadj; exact hadj)) rfl
      · rw [e1, e2] at hadj
        exact Bool.false_ne_true
          (((hdiagClear r₂ c₂ hr₂ hc₂) hadj).symm.trans hq2)
      · rw [e3, e4] at hadj
        rw [diagAdjacent_symm] at hadj
        exact Bool.false_ne_true
          (((hdiagClear r₁ c₁ hr₁ hc₁) hadj).symm.trans hq1)
      · exact h.noDiag r₁ c₁ r₂ c₂ hr₁ hc₁ hr₂ hc₂ hq1 hq2 hadj

theorem inv_tryPlaceQueen (s : GridState) (r c : Nat) (h : Inv s)
    (hr : r < s.gridSize) (hc : c < s.gridSize) : Inv (tryPlaceQueen s r c).1 := by
  rw [← attemptPlaceQueen_eq_tryPlaceQueen s r c (h.coords r c hr hc).1
    (h.coords r c hr hc).2]
  exact inv_attemptPlaceQueen s r c h hr hc

theorem inv_removeQueen (s : GridState) (r c : Nat) (h : Inv s) :
    Inv (removeQueen s r c).1 := by
  unfold removeQueen
  by_cases hq : (cellAt s r c).hasQueen = true
  case neg =>
    have : (!(cellAt s r c).hasQueen) = true := by
      simpa using hq
    rw [if_pos this]
    exact h
  case pos =>
    rw [if_neg (by simp [hq])]
    by_cases hm : (r, c) ∈ s.queens
    case neg =>
      rw [if_neg hm]
      exact h
    case pos =>
      rw [if_pos hm]
      obtain ⟨hr, hc, -⟩ := (h.queensMem (r, c)).mp hm
      have hrlen : r < s.cells.length := by rw [h.cellsLen]; exact hr
      have hclen : c < (s.cells.getD r []).length := by rw [h.rowLen r hr]; exact hc
      have hcell : ∀ r' c',
          cellAt ({ updateCellAt s r c (fun cl => { cl with hasQueen := false }) with
            queens := s.queens.erase (r, c) }) r' c' =
          if r' = r ∧ c' = c then { cellAt s r' c' with hasQueen := false }
          else cellAt s r' c' := by
        intro r' c'
        have : cellAt ({ updateCellAt s r c (fun cl => { cl with hasQueen := false }) with
            queens := s.queens.erase (r, c) }) r' c' =
            cellAt (updateCellAt s r c (fun cl => { cl with hasQueen := false })) r' c' := rfl
        rw [this, cellAt_updateCellAt]
        by_cases hx : r' = r ∧ c' = c
        · rw [if_pos ⟨hx.1, hrlen, hx.2, hclen⟩, if_pos hx]
        · have hneg : ¬(r' = r ∧ r < s.cells.length ∧ c' = c ∧
              c < (s.cells.getD r []).length) := by tauto
          rw [if_neg hneg, if_neg hx]
      have hQ : ∀ r' c',
          (cellAt ({ updateCellAt s r c (fun cl => { cl with hasQueen := false }) with
            queens := s.queens.erase (r, c) }) r' c').hasQueen = true ↔
          (¬(r' = r ∧ c' = c) ∧ (cellAt s r' c').hasQueen = true) := by
        intro r' c'
        rw [hcell r' c']
        by_cases hx : r' = r ∧ c' = c
        · simp [hx]
        · simp [hx]
      constructor
      · show (updateCellAt s r c _).cells.length = s.gridSize
        rw [updateCellAt_cells_length]
        exact h.cellsLen
      · intro r'' hr''
        show ((updateCellAt s r c _).cells.getD r'' []).length = s.gridSize
        rw [updateCellAt_length_getD]
        exact h.rowLen r'' hr''
      · intro r' c' hr' hc'
        rw [hcell r' c']
        by_cases hx : r' = r ∧ c' = c
        · rw [if_pos hx]
          exact h.coords r' c' hr' hc'
        · rw [if_neg hx]
          exact h.coords r' c' hr' hc'
      · show s.regions = initialRegions
        exact h.regionsEq
      · show (s.queens.erase (r, c)).Nodup
        exact h.queensNodup.erase (r, c)
      · intro rc
        show rc ∈ s.queens.erase (r, c) ↔ _
        rw [h.queensNodup.mem_erase_iff, hQ rc.1 rc.2]
        constructor
        · rintro ⟨hne, hmem⟩
          obtain ⟨h1, h2, h3⟩ := (h.queensMem rc).mp hmem
          refine ⟨h1, h2, ?_, h3⟩
          rintro ⟨e1, e2⟩
          exact hne (Prod.ext e1 e2)
        · rintro ⟨h1, h2, hne, hold⟩
          refine ⟨?_, (h.queensMem rc).mpr ⟨h1, h2, hold⟩⟩
          intro he
          exact hne ⟨congrArg Prod.fst he, congrArg Prod.snd he⟩
      · intro r'' c₁ c₂ hr'' hc₁ hc₂ hq1 hq2
        rw [hQ r'' c₁] at hq1
        rw [hQ r'' c₂] at hq2
        exact h.rowUnique r'' c₁ c₂ hr'' hc₁ hc₂ hq1.2 hq2.2
      · intro r₁ r₂ c'' hr₁ hr₂ hc'' hq1 hq2
        rw [hQ r₁ c''] at hq1
        rw [hQ r₂ c''] at hq2
        exact h.colUnique r₁ r₂ c'' hr₁ hr₂ hc'' hq1.2 hq2.2
      · intro r₁ c₁ r₂ c₂ hr₁ hc₁ hr₂ hc₂ hq1 hq2
        rw [hQ r₁ c₁] at hq1
        rw [hQ r₂ c₂] at hq2
        exact h.noDiag r₁ c₁ r₂ c₂ hr₁ hc₁ hr₂ hc₂ hq1.2 hq2.2

/-! ### Reachability -/

theorem inv_step {s s' : GridState} (h : Inv s) (hs : Step s s') : Inv s' := by
  cases hs with
  | attemptPlace row col hr hc => exact inv_attemptPlaceQueen _ row col h hr hc
  | tryPlace row col hr hc => exact inv_tryPlaceQueen _ row col h hr hc
  | removeStep row col hr hc => exact inv_removeQueen _ row col h
  | toggleStep row col hr hc => exact inv_toggleMark _ row col h
  | buildStep n layout => exact inv_createGrid _ n layout h.regionsEq

theorem reachable_inv {s : GridState} (h : Reachable s) : Inv s := by
  induction h with
  | start => exact inv_initial
  | step hreach hstep ih => exact inv_step ih hstep

/-! ### Counting queens -/

theorem mem_allCoords (s : GridState) (rc : Nat × Nat) :
    rc ∈ allCoords s ↔ rc.1 < s.gridSize ∧ rc.2 < s.gridSize := by
  unfold allCoords
  rw [List.mem_flatMap]
  constructor
  · rintro ⟨a, ha, hm⟩
    rw [List.mem_map] at hm
    obtain ⟨b, hb, he⟩ := hm
    rw [← he]
    exact ⟨List.mem_range.mp ha, List.mem_range.mp hb⟩
  · rintro ⟨h1, h2⟩
    exact ⟨rc.1, List.mem_range.mpr h1,
      List.mem_map.mpr ⟨rc.2, List.mem_range.mpr h2, by simp⟩⟩

theorem nodup_allCoords (s : GridState) : (allCoords s).Nodup := by
  unfold allCoords
  rw [List.nodup_flatMap]
  constructor
  · intro r _
    exact (List.nodup_range _).map fun a b hab => congrArg Prod.snd hab
  · have hlt : (List.range s.gridSize).Pairwise (· < ·) := List.pairwise_lt_range _
    refine hlt.imp ?_
    intro a b hab x hxa hxb
    rw [List.mem_map] at hxa hxb
    obtain ⟨c₁, -, he₁⟩ := hxa
    obtain ⟨c₂, -, he₂⟩ := hxb
    have : a = b := by
      have := congrArg Prod.fst (he₁.trans he₂.symm)
      simpa using this
    omega

theorem mem_getGridState (s : GridState) (rc : Nat × Nat) :
    rc ∈ getGridState s ↔
      rc.1 < s.gridSize ∧ rc.2 < s.gridSize ∧ (cellAt s rc.1 rc.2).hasQueen = true := by
  unfold getGridState
  rw [List.mem_filter, mem_allCoords]
  tauto

theorem nodup_getGridState (s : GridState) : (getGridState s).Nodup :=
  (nodup_allCoords s).filter _

/-- In any invariant-satisfying state the tracked-mesh list and the
queen-holding cells enumerate the same set, so they have equal length. -/
theorem queens_length_eq_getGridState (s : GridState) (h : Inv s) :
    s.queens.length = (getGridState s).length := by
  refine List.Perm.length_eq ?_
  rw [List.perm_ext_iff_of_nodup h.queensNodup (nodup_getGridState s)]
  intro rc
  rw [h.queensMem rc, mem_getGridState]

/-! ### Mark-erasure: the non-mark portion of a state -/

@[simp] theorem stripCell_row (c : GridCell) : (stripCell c).row = c.row := rfl

@[simp] theorem stripCell_col (c : GridCell) : (stripCell c).col = c.col := rfl

@[simp] theorem stripCell_regionId (c : GridCell) : (stripCell c).regionId = c.regionId := rfl

@[simp] theorem stripCell_hasQueen (c : GridCell) : (stripCell c).hasQueen = c.hasQueen := rfl

@[simp] theorem stripMarks_gridSize (s : GridState) : (stripMarks s).gridSize = s.gridSize := rfl

@[simp] theorem stripMarks_regions (s : GridState) : (stripMarks s).regions = s.regions := rfl

@[simp] theorem stripMarks_queens (s : GridState) : (stripMarks s).queens = s.queens := rfl

theorem getD_map {α β : Type} (f : α → β) (l : List α) (n : Nat) (d : β) (d' : α)
    (hd : f d' = d) : (l.map f).getD n d = f (l.getD n d') := by
  rw [List.getD_eq_getElem?_getD, List.getD_eq_getElem?_getD, List.getElem?_map]
  cases l[n]? <;> simp [hd]

theorem cellAt_stripMarks (s : GridState) (r c : Nat) :
    cellAt (stripMarks s) r c = stripCell (cellAt s r c) := by
  unfold cellAt stripMarks
  rw [getD_map (fun rowCells => rowCells.map stripCell) s.cells r [] [] rfl]
  exact getD_map stripCell _ c _ _ rfl

theorem regionCellsOf_stripMarks (s : GridState) (regionId : Nat) :
    regionCellsOf (stripMarks s) regionId = regionCellsOf s regionId := rfl

theorem rowConflict_stripMarks (s : GridState) (row : Nat) :
    rowConflict (stripMarks s) row = rowConflict s row := by
  unfold rowConflict
  simp [cellAt_stripMarks]

theorem colConflict_stripMarks (s : GridState) (col : Nat) :
    colConflict (stripMarks s) col = colConflict s col := by
  unfold colConflict
  simp [cellAt_stripMarks]

theorem regionConflict_stripMarks (s : GridState) (regionId : Nat) :
    regionConflict (stripMarks s) regionId = regionConflict s regionId := by
  unfold regionConflict
  simp [cellAt_stripMarks, regionCellsOf_stripMarks]

theorem hasDiagonalConflict_stripMarks (s : GridState) (row col : Nat) :
    hasDiagonalConflict (stripMarks s) row col = hasDiagonalConflict s row col := by
  unfold hasDiagonalConflict diagonalOffsetHit
  simp [cellAt_stripMarks]

theorem rowQueensExcl_stripMarks (s : GridState) (row col : Nat) :
    rowQueensExcl (stripMarks s) row col = rowQueensExcl s row col := by
  unfold rowQueensExcl
  simp [cellAt_stripMarks]

theorem colQueensExcl_stripMarks (s : GridState) (row col : Nat) :
    colQueensExcl (stripMarks s) row col = colQueensExcl s row col := by
  unfold colQueensExcl
  simp [cellAt_stripMarks]

theorem regionQueensExcl_stripMarks (s : GridState) (regionId row col : Nat) :
    regionQueensExcl (stripMarks s) regionId row col = regionQueensExcl s regionId row col := by
  unfold regionQueensExcl
  simp [cellAt_stripMarks, regionCellsOf_stripMarks]

theorem isPlacementValid_stripMarks (s : GridState) (row col : Nat) :
    isPlacementValid (stripMarks s) row col = isPlacementValid s row col := by
  unfold isPlacementValid
  simp [cellAt_stripMarks, rowConflict_stripMarks, colConflict_stripMarks,
    regionConflict_stripMarks, hasDiagonalConflict_stripMarks]

theorem isValidQueenPlacement_stripMarks (s : GridState) (row col : Nat) :
    isValidQueenPlacement (stripMarks s) row col = isValidQueenPlacement s row col := by
  unfold isValidQueenPlacement
  simp [cellAt_stripMarks, rowQueensExcl_stripMarks, colQueensExcl_stripMarks,
    regionQueensExcl_stripMarks, hasDiagonalConflict_stripMarks]

theorem gridState_eq (a b : GridState) (h1 : a.gridSize = b.gridSize)
    (h2 : a.cells = b.cells) (h3 : a.regions = b.regions) (h4 : a.queens = b.queens) :
    a = b := by
  cases a
  cases b
  simp_all

theorem map_listModify {α β : Type} (f : α → β) (l : List α) (n : Nat) (g : α → α)
    (g' : β → β) (hc : ∀ a, f (g a) = g' (f a)) :
    (listModify l n g).map f = listModify (l.map f) n g' := by
  induction l generalizing n with
  | nil => rfl
  | cons a as ih =>
    cases n with
    | zero => simp [listModify, hc]
    | succ m => simp [listModify, ih]

theorem listModify_id {α : Type} (l : List α) (n : Nat) :
    listModify l n (fun x => x) = l := by
  induction l generalizing n with
  | nil => rfl
  | cons a as ih =>
    cases n with
    | zero => rfl
    | succ m => simp [listModify, ih]

theorem stripMarks_placeQueen (s : GridState) (r c : Nat) :
    stripMarks (placeQueen s r c) = placeQueen (stripMarks s) r c := by
  apply gridState_eq
  · rfl
  · show ((placeQueen s r c).cells.map fun rowCells => rowCells.map stripCell) = _
    have hcells : (placeQueen s r c).cells =
        listModify s.cells r fun rowCells =>
          listModify rowCells c fun cl => { cl with hasQueen := true } := rfl
    have hinner : ∀ row : List GridCell,
        (fun rowCells => rowCells.map stripCell)
          ((fun rowCells =>
            listModify rowCells c fun cl => { cl with hasQueen := true }) row) =
        (fun rowCells => listModify rowCells c fun cl => { cl with hasQueen := true })
          ((fun rowCells => rowCells.map stripCell) row) := by
      intro row
      exact map_listModify stripCell row c (fun cl => { cl with hasQueen := true })
        (fun cl => { cl with hasQueen := true }) (fun a => rfl)
    rw [hcells]
    rw [map_listModify (fun rowCells => rowCells.map stripCell) s.cells r
      (fun rowCells => listModify rowCells c fun cl => { cl with hasQueen := true })
      (fun rowCells => listModify rowCells c fun cl => { cl with hasQueen := true })
      hinner]
    rfl
  · rfl
  · rfl

theorem stripMarks_toggleMark (s : GridState) (r c : Nat) :
    stripMarks (toggleMark s r c) = stripMarks s := by
  apply gridState_eq
  · rfl
  · show ((toggleMark s r c).cells.map fun rowCells => rowCells.map stripCell) = _
    have hcells : (toggleMark s r c).cells =
        listModify s.cells r fun rowCells =>
          listModify rowCells c fun cl => { cl with marked := !cl.marked } := rfl
    have hinner : ∀ row : List GridCell,
        (fun rowCells => rowCells.map stripCell)
          ((fun rowCells =>
            listModify rowCells c fun cl => { cl with marked := !cl.marked }) row) =
        (fun x : List GridCell => x)
          ((fun rowCells => rowCells.map stripCell) row) := by
      intro row
      show (listModify row c fun cl => { cl with marked := !cl.marked }).map stripCell =
        row.map stripCell
      rw [map_listModify stripCell row c (fun cl => { cl with marked := !cl.marked })
        (fun x => x) (fun a => rfl)]
      exact listModify_id _ _
    rw [hcells]
    rw [map_listModify (fun rowCells => rowCells.map stripCell) s.cells r
      (fun rowCells => listModify rowCells c fun cl => { cl with marked := !cl.marked })
      (fun x => x) hinner]
    exact listModify_id _ _
  · rfl
  · rfl

theorem hasQueen_eq_of_stripMarks_eq {s₁ s₂ : GridState}
    (h : stripMarks s₁ = stripMarks s₂) (r c : Nat) :
    (cellAt s₁ r c).hasQueen = (cellAt s₂ r c).hasQueen := by
  have h1 := congrArg (fun s => (cellAt s r c).hasQueen) h
  simpa [cellAt_stripMarks] using h1

theorem attemptPlaceQueen_mark_oblivious {s₁ s₂ : GridState}
    (h : stripMarks s₁ = stripMarks s₂) (r c : Nat) :
    (attemptPlaceQueen s₁ r c).2 = (attemptPlaceQueen s₂ r c).2 ∧
    stripMarks (attemptPlaceQueen s₁ r c).1 = stripMarks (attemptPlaceQueen s₂ r c).1 := by
  have hv : isPlacementValid s₁ r c = isPlacementValid s₂ r c := by
    rw [← isPlacementValid_stripMarks s₁, h, isPlacementValid_stripMarks]
  unfold attemptPlaceQueen
  cases hval : isPlacementValid s₂ r c with
  | false =>
    rw [hv, hval]
    simp [h]
  | true =>
    rw [hv, hval]
    simp [stripMarks_placeQueen, h]

theorem tryPlaceQueen_mark_oblivious {s₁ s₂ : GridState}
    (h : stripMarks s₁ = stripMarks s₂) (r c : Nat) :
    (tryPlaceQueen s₁ r c).2 = (tryPlaceQueen s₂ r c).2 ∧
    stripMarks (tryPlaceQueen s₁ r c).1 = stripMarks (tryPlaceQueen s₂ r c).1 := by
  have hq := hasQueen_eq_of_stripMarks_eq h r c
  have hv : isValidQueenPlacement s₁ r c = isValidQueenPlacement s₂ r c := by
    rw [← isValidQueenPlacement_stripMarks s₁, h, isValidQueenPlacement_stripMarks]
  unfold tryPlaceQueen
  cases hqb : (cellAt s₂ r c).hasQueen with
  | true =>
    rw [hq, hqb]
    simp [h]
  | false =>
    rw [hq, hqb]
    cases hvb : isValidQueenPlacement s₂ r c with
    | false =>
      rw [hv, hvb]
      simp [h]
    | true =>
      rw [hv, hvb]
      simp [stripMarks_placeQueen, h]

/-! ### Reachability of the concrete scenario states -/

theorem reachable_demoGrid : Reachable demoGrid :=
  Reachable.step Reachable.start (Step.buildStep initialState 5 altar2Regions)

theorem reachable_solState1 : Reachable solState1 :=
  Reachable.step reachable_demoGrid (Step.tryPlace demoGrid 0 1 (by decide) (by decide))

theorem reachable_solState2 : Reachable solState2 :=
  Reachable.step reachable_solState1 (Step.tryPlace solState1 1 3 (by decide) (by decide))

theorem reachable_solState3 : Reachable solState3 :=
  Reachable.step reachable_solState2 (Step.tryPlace solState2 2 0 (by decide) (by decide))

theorem reachable_solState4 : Reachable solState4 :=
  Reachable.step reachable_solState3 (Step.tryPlace solState3 3 2 (by decide) (by decide))

theorem reachable_solState5 : Reachable solState5 :=
  Reachable.step reachable_solState4 (Step.tryPlace solState4 4 4 (by decide) (by decide))

theorem reachable_regionDemo1 : Reachable regionDemo1 :=
  Reachable.step reachable_demoGrid (Step.tryPlace demoGrid 0 2 (by decide) (by decide))

theorem reachable_diagDemo1 : Reachable diagDemo1 :=
  Reachable.step reachable_demoGrid (Step.tryPlace demoGrid 2 2 (by decide) (by decide))

/-! ### Further helper lemmas for the claims -/

theorem hasQueen_in_bounds (s : GridState) (h : Inv s) (r c : Nat)
    (hq : (cellAt s r c).hasQueen = true) : r < s.gridSize ∧ c < s.gridSize := by
  by_contra hcon
  rw [cellAt_oob_hasQueen s h.cellsLen h.rowLen r c hcon] at hq
  exact Bool.false_ne_true hq

theorem removeQueen_success_state (s : GridState) (r c : Nat)
    (hq : (cellAt s r c).hasQueen = true) (hmem : (r, c) ∈ s.queens) :
    removeQueen s r c =
      ({ updateCellAt s r c (fun cl => { cl with hasQueen := false }) with
          queens := s.queens.erase (r, c) }, true) := by
  unfold removeQueen
  rw [if_neg (by simp [hq]), if_pos hmem]

/-! ### Claim theorems -/

/-- C1: the claim says `isPuzzleSolved()` is true iff exactly N cells
hold queens, every queen passes per-cell re-validation, and every
distinct region id of the loaded layout has exactly one queen.  On the
bundled 5×5 altar_2 layout (distinct region ids 0,1,2,3,6) the five
placements (0,1),(1,3),(2,0),(3,2),(4,4) are all accepted and satisfy
all three conditions, yet `isPuzzleSolved` returns `false`: its final
loop demands a queen in each of the eight default regions 0–7, which a
5-queen configuration cannot provide.  The spec (and the game's own
README, which ships this puzzle as solvable) is the intent; the code's
check against the fixed default region list is the slip. -/
theorem C1_solved_altar2_layout_not_recognized :
    (tryPlaceQueen demoGrid 0 1).2 = true ∧
    (tryPlaceQueen solState1 1 3).2 = true ∧
    (tryPlaceQueen solState2 2 0).2 = true ∧
    (tryPlaceQueen solState3 3 2).2 = true ∧
    (tryPlaceQueen solState4 4 4).2 = true ∧
    solState5.gridSize = 5 ∧
    (getGridState solState5).length = 5 ∧
    ((getGridState solState5).all fun rc =>
      isValidQueenPlacement solState5 rc.1 rc.2) = true ∧
    (([0, 1, 2, 3, 6] : List Nat).all fun rid =>
      ((getGridState solState5).filter fun rc =>
        (cellAt solState5 rc.1 rc.2).regionId == rid).length == 1) = true ∧
    (altar2Regions.flatten.all fun rid =>
      ([0, 1, 2, 3, 6] : List Nat).contains rid) = true ∧
    isPuzzleSolved solState5 = false := by
  decide

/-- C2: the claim says a placement on an empty, row/column/diagonal-clear
cell must be rejected with a region conflict whenever another cell of the
same region holds a queen.  On the altar_2 grid with a queen at (0,2)
(region 2), the cell (1,4) is also region 2 and has no row, column or
diagonal conflict, yet both entry points accept the placement and set its
queen flag: `regions[id].cells` is never populated, so rule 4 of
`isPlacementValid` (and the region count of `isValidQueenPlacement`)
scans an empty list.  The code's own rule-4 comment documents the
intent; the check is vacuous. -/
theorem C2_region_conflict_not_rejected :
    (tryPlaceQueen demoGrid 0 2).2 = true ∧
    (cellAt regionDemo1 0 2).hasQueen = true ∧
    (cellAt regionDemo1 0 2).regionId = 2 ∧
    (cellAt regionDemo1 1 4).regionId = 2 ∧
    (cellAt regionDemo1 1 4).hasQueen = false ∧
    rowConflict regionDemo1 1 = false ∧
    colConflict regionDemo1 4 = false ∧
    hasDiagonalConflict regionDemo1 1 4 = false ∧
    (attemptPlaceQueen regionDemo1 1 4).2 = true ∧
    (cellAt (attemptPlaceQueen regionDemo1 1 4).1 1 4).hasQueen = true ∧
    (tryPlaceQueen regionDemo1 1 4).2 = true ∧
    (cellAt (tryPlaceQueen regionDemo1 1 4).1 1 4).hasQueen = true := by
  decide

/-- C3: in every reachable state, `isPuzzleSolved` returns `true` only
if the number of queen-holding cells equals `gridSize` exactly, and
returns `false` whenever that count differs from `gridSize`. -/
theorem C3_solved_count_invariant :
    ∀ s : GridState, Reachable s →
      (isPuzzleSolved s = true → (getGridState s).length = s.gridSize) ∧
      ((getGridState s).length ≠ s.gridSize → isPuzzleSolved s = false) := by
  intro s hreach
  have hInv := reachable_inv hreach
  have hlen := queens_length_eq_getGridState s hInv
  constructor
  · intro hsolved
    by_contra hne
    have hq : s.queens.length ≠ s.gridSize := by rw [hlen]; exact hne
    unfold isPuzzleSolved at hsolved
    rw [if_pos hq] at hsolved
    exact Bool.false_ne_true hsolved
  · intro hne
    unfold isPuzzleSolved
    rw [if_pos (show s.queens.length ≠ s.gridSize by rw [hlen]; exact hne)]

/-- C3 witness: one queen on the 5×5 altar_2 grid. -/
theorem C3_witness :
    (getGridState solState1).length ≠ solState1.gridSize ∧
    isPuzzleSolved solState1 = false :=
  ⟨by decide, (C3_solved_count_invariant solState1 reachable_solState1).2 (by decide)⟩

/-- C4: whenever either placement entry point rejects (returns `false`),
the state after the call is exactly the state before it. -/
theorem C4_rejection_never_mutates :
    ∀ (s : GridState) (r c : Nat),
      ((attemptPlaceQueen s r c).2 = false → (attemptPlaceQueen s r c).1 = s) ∧
      ((tryPlaceQueen s r c).2 = false → (tryPlaceQueen s r c).1 = s) := by
  intro s r c
  constructor
  · intro h2
    unfold attemptPlaceQueen at h2 ⊢
    by_cases h : isPlacementValid s r c = true
    · rw [if_pos h] at h2
      simp at h2
    · rw [if_neg h]
  · intro h2
    unfold tryPlaceQueen at h2 ⊢
    by_cases hqb : (cellAt s r c).hasQueen = true
    · rw [if_pos hqb]
    · rw [if_neg hqb] at h2 ⊢
      by_cases hv : (!isValidQueenPlacement s r c) = true
      · rw [if_pos hv]
      · rw [if_neg hv] at h2
        simp at h2

/-- C4 witness: the diagonal-conflicting placement at (3,3) next to the
queen at (2,2) is rejected by both entry points and changes nothing. -/
theorem C4_witness :
    (attemptPlaceQueen diagDemo1 3 3).2 = false ∧
    (attemptPlaceQueen diagDemo1 3 3).1 = diagDemo1 ∧
    (tryPlaceQueen diagDemo1 3 3).2 = false ∧
    (tryPlaceQueen diagDemo1 3 3).1 = diagDemo1 :=
  ⟨by decide, (C4_rejection_never_mutates diagDemo1 3 3).1 (by decide),
   by decide, (C4_rejection_never_mutates diagDemo1 3 3).2 (by decide)⟩

/-- C5: in every reachable state, `removeQueen` on a cell without a
queen returns `false` and leaves the state untouched; on a cell with a
queen it returns `true` and clears exactly that cell's `hasQueen` flag,
with no validation beyond the queen's presence. -/
theorem C5_removeQueen_spec :
    ∀ (s : GridState) (r c : Nat), Reachable s →
      ((cellAt s r c).hasQueen = false → removeQueen s r c = (s, false)) ∧
      ((cellAt s r c).hasQueen = true →
        (removeQueen s r c).2 = true ∧
        cellAt (removeQueen s r c).1 r c = { cellAt s r c with hasQueen := false } ∧
        ∀ r' c', ¬(r' = r ∧ c' = c) →
          cellAt (removeQueen s r c).1 r' c' = cellAt s r' c') := by
  intro s r c hreach
  have hInv := reachable_inv hreach
  constructor
  · intro hq
    unfold removeQueen
    rw [if_pos (by simp [hq])]
  · intro hq
    obtain ⟨hr, hc⟩ := hasQueen_in_bounds s hInv r c hq
    have hmem : (r, c) ∈ s.queens := (hInv.queensMem (r, c)).mpr ⟨hr, hc, hq⟩
    have hrlen : r < s.cells.length := by rw [hInv.cellsLen]; exact hr
    have hclen : c < (s.cells.getD r []).length := by rw [hInv.rowLen r hr]; exact hc
    rw [removeQueen_success_state s r c hq hmem]
    refine ⟨rfl, ?_, ?_⟩
    · show cellAt (updateCellAt s r c _) r c = _
      rw [cellAt_updateCellAt, if_pos ⟨rfl, hrlen, rfl, hclen⟩]
    · intro r' c' hne
      show cellAt (updateCellAt s r c _) r' c' = _
      rw [cellAt_updateCellAt, if_neg (by tauto)]

/-- C5 witness: removing at empty (0,0) is a no-op returning `false`;
removing the queen at (2,2) returns `true` and clears the flag. -/
theorem C5_witness :
    (cellAt diagDemo1 0 0).hasQueen = false ∧
    removeQueen diagDemo1 0 0 = (diagDemo1, false) ∧
    (cellAt diagDemo1 2 2).hasQueen = true ∧
    (removeQueen diagDemo1 2 2).2 = true ∧
    cellAt (removeQueen diagDemo1 2 2).1 2 2 =
      { cellAt diagDemo1 2 2 with hasQueen := false } :=
  ⟨by decide, (C5_removeQueen_spec diagDemo1 0 0 reachable_diagDemo1).1 (by decide),
   by decide, ((C5_removeQueen_spec diagDemo1 2 2 reachable_diagDemo1).2 (by decide)).1,
   ((C5_removeQueen_spec diagDemo1 2 2 reachable_diagDemo1).2 (by decide)).2.1⟩

/-- C6: on the otherwise empty 5×5 altar_2 grid, placing at (2,2)
succeeds and the subsequent attempt at (3,3) is rejected — with the
diagonal check as the only failing rule — leaving exactly one
queen-holding cell; and in every reachable state no two queen-holding
cells are diagonally adjacent. -/
theorem C6_diagonal_adjacency_exclusion :
    ((tryPlaceQueen demoGrid 2 2).2 = true ∧
     (tryPlaceQueen diagDemo1 3 3).2 = false ∧
     (tryPlaceQueen diagDemo1 3 3).1 = diagDemo1 ∧
     (cellAt diagDemo1 3 3).hasQueen = false ∧
     rowConflict diagDemo1 3 = false ∧
     colConflict diagDemo1 3 = false ∧
     regionConflict diagDemo1 (cellAt diagDemo1 3 3).regionId = false ∧
     hasDiagonalConflict diagDemo1 3 3 = true ∧
     (getGridState (tryPlaceQueen diagDemo1 3 3).1).length = 1) ∧
    ∀ s : GridState, Reachable s → ∀ r c r' c',
      (cellAt s r c).hasQueen = true → (cellAt s r' c').hasQueen = true →
      ¬diagAdjacent r c r' c' := by
  constructor
  · decide
  · intro s hreach r c r' c' hq1 hq2
    have hInv := reachable_inv hreach
    obtain ⟨h1, h2⟩ := hasQueen_in_bounds s hInv r c hq1
    obtain ⟨h3, h4⟩ := hasQueen_in_bounds s hInv r' c' hq2
    exact hInv.noDiag r c r' c' h1 h2 h3 h4 hq1 hq2

/-- C6 witness: instantiating the reachable-state clause at the
single-queen state. -/
theorem C6_witness :
    (cellAt diagDemo1 2 2).hasQueen = true ∧ ¬diagAdjacent 2 2 2 2 :=
  ⟨by decide, C6_diagonal_adjacency_exclusion.2 diagDemo1 reachable_diagDemo1
    2 2 2 2 (by decide) (by decide)⟩

/-- C7: in every reachable state, removing the queen at (r,c) and
immediately attempting to place at (r,c) again succeeds, through either
entry point. -/
theorem C7_remove_then_replace_succeeds :
    ∀ (s : GridState) (r c : Nat), Reachable s → (cellAt s r c).hasQueen = true →
      (attemptPlaceQueen (removeQueen s r c).1 r c).2 = true ∧
      (tryPlaceQueen (removeQueen s r c).1 r c).2 = true := by
  intro s r c hreach hq
  have hInv := reachable_inv hreach
  obtain ⟨hr, hc⟩ := hasQueen_in_bounds s hInv r c hq
  have hmem : (r, c) ∈ s.queens := (hInv.queensMem (r, c)).mpr ⟨hr, hc, hq⟩
  have hrlen : r < s.cells.length := by rw [hInv.cellsLen]; exact hr
  have hclen : c < (s.cells.getD r []).length := by rw [hInv.rowLen r hr]; exact hc
  have hInvR : Inv (removeQueen s r c).1 := inv_removeQueen s r c hInv
  have hgs : (removeQueen s r c).1.gridSize = s.gridSize := by
    unfold removeQueen
    split_ifs <;> rfl
  have hcell : ∀ r' c', cellAt (removeQueen s r c).1 r' c' =
      if r' = r ∧ c' = c then { cellAt s r' c' with hasQueen := false }
      else cellAt s r' c' := by
    intro r' c'
    rw [removeQueen_success_state s r c hq hmem]
    show cellAt (updateCellAt s r c _) r' c' = _
    rw [cellAt_updateCellAt]
    by_cases hx : r' = r ∧ c' = c
    · rw [if_pos ⟨hx.1, hrlen, hx.2, hclen⟩, if_pos hx]
    · rw [if_neg (by tauto), if_neg hx]
  have hq' : (cellAt (removeQueen s r c).1 r c).hasQueen = false := by
    rw [hcell r c, if_pos ⟨rfl, rfl⟩]
  have hco := hInvR.coords r c (by rw [hgs]; exact hr) (by rw [hgs]; exact hc)
  have hvalid : isPlacementValid (removeQueen s r c).1 r c = true := by
    rw [isPlacementValid_eq_true, hco.1, hco.2]
    refine ⟨hq', ?_, ?_, ?_, ?_⟩
    · rw [rowConflict_eq_false]
      intro c'' hc''
      rw [hgs] at hc''
      rw [hcell r c'']
      by_cases hx : c'' = c
      · rw [if_pos ⟨rfl, hx⟩]
      · rw [if_neg (by tauto)]
        cases hb : (cellAt s r c'').hasQueen with
        | false => rfl
        | true => exact absurd (hInv.rowUnique r c'' c hr hc'' hc hb hq) hx
    · rw [colConflict_eq_false]
      intro r'' hr''
      rw [hgs] at hr''
      rw [hcell r'' c]
      by_cases hx : r'' = r
      · rw [if_pos ⟨hx, rfl⟩]
      · rw [if_neg (by tauto)]
        cases hb : (cellAt s r'' c).hasQueen with
        | false => rfl
        | true => exact absurd (hInv.colUnique r'' r c hr'' hr hc hb hq) hx
    · have hreg := regionCellsOf_initial (removeQueen s r c).1 hInvR.regionsEq
        (cellAt (removeQueen s r c).1 r c).regionId
      unfold regionConflict
      rw [hreg]
      rfl
    · rw [hasDiagonalConflict_eq_false]
      intro r'' c'' hr'' hc'' hadj
      rw [hgs] at hr'' hc''
      have hner : ¬(r'' = r ∧ c'' = c) := by
        intro hx
        exact diagAdjacent_ne_row r c r'' c'' hadj (hx.1.symm)
      rw [hcell r'' c'', if_neg hner]
      cases hb : (cellAt s r'' c'').hasQueen with
      | false => rfl
      | true => exact absurd hadj (hInv.noDiag r c r'' c'' hr hc hr'' hc'' hq hb)
  constructor
  · unfold attemptPlaceQueen
    rw [if_pos hvalid]
  · rw [← attemptPlaceQueen_eq_tryPlaceQueen (removeQueen s r c).1 r c hco.1 hco.2]
    unfold attemptPlaceQueen
    rw [if_pos hvalid]

/-- C7 witness: remove the queen at (2,2) and re-place it. -/
theorem C7_witness :
    (cellAt diagDemo1 2 2).hasQueen = true ∧
    (attemptPlaceQueen (removeQueen diagDemo1 2 2).1 2 2).2 = true ∧
    (tryPlaceQueen (removeQueen diagDemo1 2 2).1 2 2).2 = true :=
  ⟨by decide,
   (C7_remove_then_replace_succeeds diagDemo1 2 2 reachable_diagDemo1 (by decide)).1,
   (C7_remove_then_replace_succeeds diagDemo1 2 2 reachable_diagDemo1 (by decide)).2⟩

theorem mapM_option_eq_some_map {α β : Type} (l : List α) (f : α → Option β)
    (g : α → β) (h : ∀ a ∈ l, f a = some (g a)) : l.mapM f = some (l.map g) := by
  induction l with
  | nil => rfl
  | cons a as ih =>
    rw [List.mapM_cons, h a (by simp), List.map_cons,
      ih fun x hx => h x (List.mem_cons_of_mem a hx)]
    rfl

theorem getD_mem_of_lt {α : Type} (l : List α) (n : Nat) (d : α) (h : n < l.length) :
    l.getD n d ∈ l := by
  rw [List.getD_eq_getElem?_getD, List.getElem?_eq_getElem h]
  exact List.getElem_mem h

/-- When every layout entry indexes an existing region, none of the
per-cell dereferences throws and the checked build produces exactly the
grid of the total `createGrid`. -/
theorem createGridChecked_eq_some (s : GridState) (n : Nat) (layout : List (List Nat))
    (hlen : layout.length = n) (hrows : ∀ row ∈ layout, row.length = n)
    (hb : ∀ row ∈ layout, ∀ rid ∈ row, rid < s.regions.length) :
    createGridChecked s n layout = some (createGrid s n layout) := by
  unfold createGridChecked
  have houter : (List.range n).mapM (fun row =>
      (List.range n).mapM fun col =>
        createCellChecked (resetGrid s) row col ((layout.getD row []).getD col 0)) =
      some ((List.range n).map fun row =>
        (List.range n).map fun col =>
          createCell row col ((layout.getD row []).getD col 0)) := by
    apply mapM_option_eq_some_map
    intro row hrow
    apply mapM_option_eq_some_map
    intro col hcol
    have hrowmem : layout.getD row [] ∈ layout :=
      getD_mem_of_lt layout row [] (by rw [hlen]; exact List.mem_range.mp hrow)
    have hentrymem : (layout.getD row []).getD col 0 ∈ layout.getD row [] :=
      getD_mem_of_lt _ col 0 (by rw [hrows _ hrowmem]; exact List.mem_range.mp hcol)
    have hlt : (layout.getD row []).getD col 0 < s.regions.length :=
      hb _ hrowmem _ hentrymem
    unfold createCellChecked
    rw [show (resetGrid s).regions = s.regions from rfl, List.getElem?_eq_getElem hlt]
  rw [houter]
  rfl

/-- C8 counterexample: the claim asserts `createGrid` always builds the
full n×n grid from a dimension-correct layout, but `createCell`
dereferences `this.regions[regionId].color` and only eight default
regions exist, so the 1×1 layout `[[8]]` — dimensionally correct, with a
non-negative region id — makes the build throw before any cell is
created instead of producing the fresh grid. -/
theorem C8_counterexample :
    ([[8]] : List (List Nat)).length = 1 ∧
    (∀ row ∈ ([[8]] : List (List Nat)), row.length = 1) ∧
    initialState.regions.length = 8 ∧
    createGridChecked initialState 1 [[8]] = none := by
  decide

/-- C8 (amended): provided every region id of the supplied layout
indexes an existing region (in the program, the eight default regions
0–7), `createGrid` completes — the checked build agrees with it — and
discards all previous state (in particular the queen list and queen
flags), building exactly n×n cells with `hasQueen = false`,
`marked = false`, and `regionId` read from the corresponding entry of
the supplied layout. -/
theorem C8_createGrid_resets_and_builds_fresh :
    ∀ (s : GridState) (n : Nat) (layout : List (List Nat)),
      layout.length = n → (∀ row ∈ layout, row.length = n) →
      (∀ row ∈ layout, ∀ rid ∈ row, rid < s.regions.length) →
      createGridChecked s n layout = some (createGrid s n layout) ∧
      (createGrid s n layout).queens = [] ∧
      (getGridState (createGrid s n layout)).length = 0 ∧
      (createGrid s n layout).cells.length = n ∧
      (∀ r, r < n → ((createGrid s n layout).cells.getD r []).length = n) ∧
      (∀ r c, r < n → c < n →
        cellAt (createGrid s n layout) r c =
          createCell r c ((layout.getD r []).getD c 0)) := by
  intro s n layout hlen hrows hb
  refine ⟨createGridChecked_eq_some s n layout hlen hrows hb, rfl, ?_,
    createGrid_cells_length s n layout,
    fun r hr => createGrid_row_length s n layout r hr,
    fun r c hr hc => cellAt_createGrid s n layout r c hr hc⟩
  rw [List.length_eq_zero]
  unfold getGridState
  rw [List.filter_eq_nil_iff]
  intro rc hm
  rw [mem_allCoords] at hm
  rw [cellAt_createGrid s n layout rc.1 rc.2 (by simpa using hm.1) (by simpa using hm.2)]
  simp [createCell]

/-- C8 witness: rebuilding over a grid that already has three queens
completes (all altar_2 region ids index default regions) and resets the
queen count to zero. -/
theorem C8_witness :
    (getGridState solState3).length = 3 ∧
    createGridChecked solState3 5 altar2Regions =
      some (createGrid solState3 5 altar2Regions) ∧
    (createGrid solState3 5 altar2Regions).queens = [] ∧
    (getGridState (createGrid solState3 5 altar2Regions)).length = 0 :=
  ⟨by decide,
   (C8_createGrid_resets_and_builds_fresh solState3 5 altar2Regions
     (by decide) (by decide) (by decide)).1,
   (C8_createGrid_resets_and_builds_fresh solState3 5 altar2Regions
     (by decide) (by decide) (by decide)).2.1,
   (C8_createGrid_resets_and_builds_fresh solState3 5 altar2Regions
     (by decide) (by decide) (by decide)).2.2.1⟩

/-- C9: `toggleMark` changes nothing but the target cell's `marked`
flag, and marks are invisible to placement: two states equal after
erasing marks produce identical accept/reject outcomes and identical
queen configurations (again up to marks) under either entry point. -/
theorem C9_marks_are_inert :
    (∀ (s : GridState) (r c : Nat), stripMarks (toggleMark s r c) = stripMarks s) ∧
    (∀ (s : GridState) (r c : Nat), r < s.cells.length → c < (s.cells.getD r []).length →
      (cellAt (toggleMark s r c) r c).marked = !(cellAt s r c).marked ∧
      ∀ r' c', ¬(r' = r ∧ c' = c) → cellAt (toggleMark s r c) r' c' = cellAt s r' c') ∧
    (∀ s₁ s₂ : GridState, stripMarks s₁ = stripMarks s₂ → ∀ r c : Nat,
      (attemptPlaceQueen s₁ r c).2 = (attemptPlaceQueen s₂ r c).2 ∧
      (tryPlaceQueen s₁ r c).2 = (tryPlaceQueen s₂ r c).2 ∧
      stripMarks (attemptPlaceQueen s₁ r c).1 = stripMarks (attemptPlaceQueen s₂ r c).1 ∧
      stripMarks (tryPlaceQueen s₁ r c).1 = stripMarks (tryPlaceQueen s₂ r c).1 ∧
      ∀ r' c', (cellAt (attemptPlaceQueen s₁ r c).1 r' c').hasQueen =
          (cellAt (attemptPlaceQueen s₂ r c).1 r' c').hasQueen ∧
        (cellAt (tryPlaceQueen s₁ r c).1 r' c').hasQueen =
          (cellAt (tryPlaceQueen s₂ r c).1 r' c').hasQueen) := by
  refine ⟨stripMarks_toggleMark, ?_, ?_⟩
  · intro s r c hrlen hclen
    constructor
    · show (cellAt (updateCellAt s r c _) r c).marked = _
      rw [cellAt_updateCellAt, if_pos ⟨rfl, hrlen, rfl, hclen⟩]
    · intro r' c' hne
      show cellAt (updateCellAt s r c _) r' c' = _
      rw [cellAt_updateCellAt, if_neg (by tauto)]
  · intro s₁ s₂ h r c
    obtain ⟨ha2, ha1⟩ := attemptPlaceQueen_mark_oblivious h r c
    obtain ⟨ht2, ht1⟩ := tryPlaceQueen_mark_oblivious h r c
    exact ⟨ha2, ht2, ha1, ht1, fun r' c' =>
      ⟨hasQueen_eq_of_stripMarks_eq ha1 r' c', hasQueen_eq_of_stripMarks_eq ht1 r' c'⟩⟩

/-- C9 witness: toggling a mark at (1,1) does not change the rejection
of the diagonal-conflicting placement at (3,3). -/
theorem C9_witness :
    stripMarks (toggleMark diagDemo1 1 1) = stripMarks diagDemo1 ∧
    (tryPlaceQueen (toggleMark diagDemo1 1 1) 3 3).2 = (tryPlaceQueen diagDemo1 3 3).2 ∧
    (cellAt (toggleMark diagDemo1 1 1) 1 1).marked = !(cellAt diagDemo1 1 1).marked := by
  have h1 := C9_marks_are_inert.1 diagDemo1 1 1
  exact ⟨h1,
    (C9_marks_are_inert.2.2 (toggleMark diagDemo1 1 1) diagDemo1 h1 3 3).2.1,
    (C9_marks_are_inert.2.1 diagDemo1 1 1 (by decide) (by decide)).1⟩

/-- C10: on every state whose target cell records its own coordinates
(true of every cell the source constructs), `attemptPlaceQueen` and
`tryPlaceQueen` return the same boolean and the same resulting state. -/
theorem C10_attempt_and_try_interchangeable :
    ∀ (s : GridState) (r c : Nat),
      (cellAt s r c).row = r → (cellAt s r c).col = c →
      attemptPlaceQueen s r c = tryPlaceQueen s r c :=
  fun s r c hrow hcol => attemptPlaceQueen_eq_tryPlaceQueen s r c hrow hcol

/-- C10 witness: the two entry points agree at (3,3) of the one-queen
altar_2 grid. -/
theorem C10_witness :
    (cellAt diagDemo1 3 3).row = 3 ∧ (cellAt diagDemo1 3 3).col = 3 ∧
    attemptPlaceQueen diagDemo1 3 3 = tryPlaceQueen diagDemo1 3 3 :=
  ⟨by decide, by decide,
   C10_attempt_and_try_interchangeable diagDemo1 3 3 (by decide) (by decide)⟩

end AstralQueens
